import Mathlib

/-!
Shallow embedding of the Envoy access-log filter engine
(`source/common/access_log/access_log_impl.h`).

The repository fragment is a header: it declares `FilterFactory`,
`ComparisonFilter`, `StatusCodeFilter`, `DurationFilter`, `OperatorFilter`,
`AndFilter`, `OrFilter`, `NotHealthCheckFilter`, `TraceableRequestFilter`,
`RuntimeFilter`, `AccessLogFactory` and `FileAccessLog`, but contains no
function bodies.  The behaviour of every method is therefore modelled from
the specification, faithful to its words; the header fixes the shapes
(in particular, `Filter::evaluate` takes the request info and the request
headers only, and `FileAccessLog::log` additionally receives the response
headers).

State that evaluation may touch is passed explicitly: the injectable random
source of the sampling filter is a list of pre-committed draws, the sink is
a list of written lines plus a formatter-call counter.
-/

namespace Envoy
namespace AccessLog

/-- Modelled from the spec: the `RequestSnapshot` data model (§3) — the
read-only per-request facts exposed by `RequestInfo::RequestInfo`:
optional response status code, total duration, health-check flag and
explicit-trace-decision flag. -/
structure RequestSnapshot where
  status_code : Option Nat
  duration : Nat
  is_health_check : Bool
  has_explicit_trace_decision : Bool

/-- Modelled from the spec: `HeaderView` (§6) — an opaque read-only ordered
multimap of header name to value.  Filters receive it but current variants
do not consult it. -/
def Headers := List (String × String)

/-- Modelled from the spec: the `RuntimeProvider` capability
(`Runtime::Loader`, §3/§6) — a read-only mapping from key to an overriding
numeric value; `none` means the key is unset. -/
def RuntimeProvider := String → Option Nat

/-- Modelled from the spec: `RuntimeProvider.get_integer(key, default)`
(§6) — returns the runtime-provided value for `key` when present and the
default otherwise; never fails. -/
def RuntimeProvider.get (rt : RuntimeProvider) (key : String) (dflt : Nat) : Nat :=
  (rt key).getD dflt

/-- The comparison operators of a `Comparison` node (§3). -/
inductive CompOp where
  | eq | ne | le | ge | lt | gt
deriving DecidableEq, Repr

/-- Modelled from the spec: "Apply `op` with standard unsigned-integer
comparison semantics" (§4.1) — the boolean comparison of the resolved
left-hand value against the resolved right-hand value. -/
def CompOp.apply : CompOp → Nat → Nat → Bool
  | .eq, a, b => a == b
  | .ne, a, b => a != b
  | .le, a, b => a ≤ b
  | .ge, a, b => b ≤ a
  | .lt, a, b => a < b
  | .gt, a, b => b < a

/-- The propositional reading of each operator as the standard comparison
on unsigned integers; used to state that `CompOp.apply` matches direct
arithmetic comparison. -/
def CompOp.holds : CompOp → Nat → Nat → Prop
  | .eq, a, b => a = b
  | .ne, a, b => a ≠ b
  | .le, a, b => a ≤ b
  | .ge, a, b => b ≤ a
  | .lt, a, b => a < b
  | .gt, a, b => b < a

/-- Modelled from the spec: the parameters of a `Comparison` node (§3):
operator, literal default value, and optional runtime key. -/
structure Comparison where
  op : CompOp
  literal : Nat
  runtime_key : Option String
deriving Repr

/-- Modelled from the spec: resolution of the right-hand comparison value
(§4.1): "Resolve `rhs` = runtime override (via `RuntimeProvider.get(key,
literal)`) or `literal` if no key configured." -/
def Comparison.rhs (c : Comparison) (rt : RuntimeProvider) : Nat :=
  match c.runtime_key with
  | some k => rt.get k c.literal
  | none => c.literal

/-- Modelled from the spec: `ComparisonFilter::compareAgainstValue` —
compare the resolved left-hand value against the resolved right-hand
value under the configured operator (§4.1). -/
def Comparison.compareAgainstValue (c : Comparison) (rt : RuntimeProvider) (lhs : Nat) : Bool :=
  c.op.apply lhs (c.rhs rt)

/-- Modelled from the spec: the filter tree (§3) as a closed tagged
variant (§9): comparison filters on status code and duration, the And/Or
operator filters over an ordered child list, the health-check exclusion
filter, the traceable-request filter, and the runtime sampling filter. -/
inductive Filter where
  | statusCode (c : Comparison)
  | duration (c : Comparison)
  | and (children : List Filter)
  | or (children : List Filter)
  | notHealthCheck
  | traceableRequest
  | runtimeSample (key : String) (numerator : Nat) (denominator : Nat)
      (independent_randomness : Bool)
deriving Repr

mutual

/-- Modelled from the spec: `Filter::evaluate` for every variant
(§4.1–§4.5).  Mirrors the header's signature: the inputs are the request
snapshot and the request headers (response headers are not a parameter of
`evaluate`).  The only stateful variant is the sampling filter, which
consumes one draw from the random source; all other variants return the
state unchanged. -/
def Filter.evaluate (rt : RuntimeProvider) (info : RequestSnapshot)
    (request_headers : Option Headers) : Filter → List Nat → Bool × List Nat
  | .statusCode c, rand => (c.compareAgainstValue rt (info.status_code.getD 0), rand)
  | .duration c, rand => (c.compareAgainstValue rt info.duration, rand)
  | .and cs, rand => Filter.evalAnd rt info request_headers cs rand
  | .or cs, rand => Filter.evalOr rt info request_headers cs rand
  | .notHealthCheck, rand => (!info.is_health_check, rand)
  | .traceableRequest, rand =>
      (!info.is_health_check && info.has_explicit_trace_decision, rand)
  | .runtimeSample key num _den _indep, rand =>
      (decide (rand.headD 0 < rt.get key num), rand.tail)

/-- Modelled from the spec: `AndFilter::evaluate` (§4.2) — evaluate
children in configured order, short-circuit and return `false` on the
first child returning `false`, otherwise `true`; the empty child list
yields `true`. -/
def Filter.evalAnd (rt : RuntimeProvider) (info : RequestSnapshot)
    (request_headers : Option Headers) : List Filter → List Nat → Bool × List Nat
  | [], rand => (true, rand)
  | f :: fs, rand =>
      match Filter.evaluate rt info request_headers f rand with
      | (true, rand') => Filter.evalAnd rt info request_headers fs rand'
      | (false, rand') => (false, rand')

/-- Modelled from the spec: `OrFilter::evaluate` (§4.2) — evaluate
children in configured order, short-circuit and return `true` on the
first child returning `true`, otherwise `false`; the empty child list
yields `false`. -/
def Filter.evalOr (rt : RuntimeProvider) (info : RequestSnapshot)
    (request_headers : Option Headers) : List Filter → List Nat → Bool × List Nat
  | [], rand => (false, rand)
  | f :: fs, rand =>
      match Filter.evaluate rt info request_headers f rand with
      | (false, rand') => Filter.evalOr rt info request_headers fs rand'
      | (true, rand') => (true, rand')

end

/-- Sequential evaluation of every child in configured order, threading
the random state and collecting each child's boolean; the full (non-short-
circuiting) reference run against which the operator filters' results are
stated. -/
def Filter.childResults (rt : RuntimeProvider) (info : RequestSnapshot)
    (request_headers : Option Headers) : List Filter → List Nat → List Bool × List Nat
  | [], rand => ([], rand)
  | f :: fs, rand =>
      let (b, rand') := Filter.evaluate rt info request_headers f rand
      let (bs, rand'') := Filter.childResults rt info request_headers fs rand'
      (b :: bs, rand'')

/-- The generic short-circuiting And fold of `OperatorFilter`: evaluate
children in configured order against a threaded state, stop at the first
`false`.  `Filter.evalAnd` is this fold instantiated with
`Filter.evaluate`; keeping the child evaluator and the state abstract lets
the short-circuit frame property be stated for instrumented evaluators
(call logs) as well. -/
def andFold {α σ : Type} (ev : α → σ → Bool × σ) : List α → σ → Bool × σ
  | [], s => (true, s)
  | f :: fs, s =>
      match ev f s with
      | (true, s') => andFold ev fs s'
      | (false, s') => (false, s')

/-- The generic short-circuiting Or fold of `OperatorFilter`: evaluate
children in configured order against a threaded state, stop at the first
`true`. -/
def orFold {α σ : Type} (ev : α → σ → Bool × σ) : List α → σ → Bool × σ
  | [], s => (false, s)
  | f :: fs, s =>
      match ev f s with
      | (false, s') => orFold ev fs s'
      | (true, s') => (true, s')

/-- Sequential full run of a child evaluator over a list: every child is
evaluated exactly once in order, threading the state; returns the list of
child booleans and the final state. -/
def seqRun {α σ : Type} (ev : α → σ → Bool × σ) : List α → σ → List Bool × σ
  | [], s => ([], s)
  | f :: fs, s =>
      let (b, s') := ev f s
      let (bs, s'') := seqRun ev fs s'
      (b :: bs, s'')

/-- Instrument a child evaluator with an invocation log: each call appends
the evaluated child to the log, leaving its behaviour on the underlying
state untouched.  Used to state which children an operator filter invokes
and how often. -/
def instrument {α σ : Type} (ev : α → σ → Bool × σ) (f : α) :
    σ × List α → Bool × (σ × List α)
  | (s, log) =>
      let (b, s') := ev f s
      (b, (s', log ++ [f]))

/-- Modelled from the spec: the `ConfigError` taxonomy (§7) raised during
`FilterFactory` construction. -/
inductive ConfigError where
  | UnknownKind
  | MissingField
  | InvalidOperator
deriving DecidableEq, Repr

/-- Modelled from the spec: the raw comparison parameters of a
configuration node before validation (§6); parsing of the structured
configuration into these raw parameters is out of scope (§1), so the
operator arrives already as an enumeration value or is absent. -/
structure RawComparison where
  op : Option CompOp
  literal : Option Nat
  runtime_key : Option String

/-- Modelled from the spec: one raw configuration node consumed by
`FilterFactory::fromProto` (§6): a kind tag plus the optional fields each
kind may require.  An unrecognised kind tag (e.g. `"bogus"`) is
representable, as the factory must reject it. -/
inductive RawFilterConfig where
  | mk (kind : String)
      (comparison : Option RawComparison)
      (children : List RawFilterConfig)
      (runtime_key : Option String)
      (numerator : Option Nat)
      (denominator : Option Nat)
      (independent_randomness : Option Bool)

/-- Validate and translate raw comparison parameters: a comparison filter
requires operator and literal (§4.6); the runtime key stays optional. -/
def buildComparison : Option RawComparison → Except ConfigError Comparison
  | none => .error .MissingField
  | some c =>
      match c.op, c.literal with
      | some op, some lit => .ok ⟨op, lit, c.runtime_key⟩
      | _, _ => .error .MissingField

mutual

/-- Modelled from the spec: `FilterFactory::fromProto` (§4.6) — validate
that each node carries the fields its kind requires and build the filter
tree: a comparison kind requires operator and literal, an operator kind
recursively validates its children, the runtime sample kind requires key
and numerator with the denominator defaulting to 100 and the independence
flag to false; an unrecognised kind fails with `UnknownKind`, a missing
field with `MissingField`; construction is all-or-nothing. -/
def FilterFactory.fromProto : RawFilterConfig → Except ConfigError Filter
  | .mk kind cmp children key num den indep =>
      match kind with
      | "status_code" =>
          match buildComparison cmp with
          | .ok c => .ok (.statusCode c)
          | .error e => .error e
      | "duration" =>
          match buildComparison cmp with
          | .ok c => .ok (.duration c)
          | .error e => .error e
      | "and" =>
          match FilterFactory.fromProtoList children with
          | .ok fs => .ok (.and fs)
          | .error e => .error e
      | "or" =>
          match FilterFactory.fromProtoList children with
          | .ok fs => .ok (.or fs)
          | .error e => .error e
      | "not_health_check" => .ok .notHealthCheck
      | "traceable_request" => .ok .traceableRequest
      | "runtime_sample" =>
          match key, num with
          | some k, some n => .ok (.runtimeSample k n (den.getD 100) (indep.getD false))
          | _, _ => .error .MissingField
      | _ => .error .UnknownKind

/-- Recursive validation of an operator node's child list (§4.6): every
entry must build; the first failure aborts the whole construction. -/
def FilterFactory.fromProtoList : List RawFilterConfig → Except ConfigError (List Filter)
  | [] => .ok []
  | c :: cs =>
      match FilterFactory.fromProto c with
      | .error e => .error e
      | .ok f =>
          match FilterFactory.fromProtoList cs with
          | .error e => .error e
          | .ok fs => .ok (f :: fs)

end

/-- Modelled from the spec: `Formatter.format(snapshot, request_headers?,
response_headers?) -> bytes` (§6) — an external collaborator turning a
snapshot and headers into a log line. -/
def Formatter := RequestSnapshot → Option Headers → Option Headers → String

/-- Modelled from the spec: the `FileAccessLog` instance state — an
optional filter paired with a formatter (§4.7); the sink itself lives in
`SinkState`. -/
structure FileAccessLog where
  filter : Option Filter
  formatter : Formatter

/-- The observable state threaded through `FileAccessLog.log`: the random
source of sampling filters, the sequence of lines written to the sink,
and the number of formatter invocations. -/
structure SinkState where
  rand : List Nat
  writes : List String
  formatterCalls : Nat

/-- Modelled from the spec: `FileAccessLog::log` (§4.7) — if a filter is
configured, evaluate it; on `false` return without invoking the formatter
or writing; otherwise (or when no filter is configured) invoke the
formatter once and write its output to the sink. -/
def FileAccessLog.log (al : FileAccessLog) (rt : RuntimeProvider)
    (request_headers response_headers : Option Headers)
    (info : RequestSnapshot) (s : SinkState) : SinkState :=
  match al.filter with
  | some f =>
      match Filter.evaluate rt info request_headers f s.rand with
      | (false, rand') => { s with rand := rand' }
      | (true, rand') =>
          { rand := rand',
            writes := s.writes ++ [al.formatter info request_headers response_headers],
            formatterCalls := s.formatterCalls + 1 }
  | none =>
      { s with
        writes := s.writes ++ [al.formatter info request_headers response_headers],
        formatterCalls := s.formatterCalls + 1 }

/-! ## Shared lemmas -/

theorem evalAnd_eq_andFold (rt : RuntimeProvider) (info : RequestSnapshot)
    (h : Option Headers) (cs : List Filter) (rand : List Nat) :
    Filter.evalAnd rt info h cs rand = andFold (Filter.evaluate rt info h) cs rand := by
  induction cs generalizing rand with
  | nil => rfl
  | cons f fs ih =>
      simp only [Filter.evalAnd, andFold]
      rcases hf : Filter.evaluate rt info h f rand with ⟨b, rand'⟩
      cases b <;> simp [ih]

theorem evalOr_eq_orFold (rt : RuntimeProvider) (info : RequestSnapshot)
    (h : Option Headers) (cs : List Filter) (rand : List Nat) :
    Filter.evalOr rt info h cs rand = orFold (Filter.evaluate rt info h) cs rand := by
  induction cs generalizing rand with
  | nil => rfl
  | cons f fs ih =>
      simp only [Filter.evalOr, orFold]
      rcases hf : Filter.evaluate rt info h f rand with ⟨b, rand'⟩
      cases b <;> simp [ih]

theorem evalAnd_fst_eq_all (rt : RuntimeProvider) (info : RequestSnapshot)
    (h : Option Headers) (cs : List Filter) (rand : List Nat) :
    (Filter.evalAnd rt info h cs rand).fst
      = (Filter.childResults rt info h cs rand).fst.all id := by
  induction cs generalizing rand with
  | nil => rfl
  | cons f fs ih =>
      simp only [Filter.evalAnd, Filter.childResults]
      rcases hf : Filter.evaluate rt info h f rand with ⟨b, rand'⟩
      cases b <;> simp [ih]

theorem evalOr_fst_eq_any (rt : RuntimeProvider) (info : RequestSnapshot)
    (h : Option Headers) (cs : List Filter) (rand : List Nat) :
    (Filter.evalOr rt info h cs rand).fst
      = (Filter.childResults rt info h cs rand).fst.any id := by
  induction cs generalizing rand with
  | nil => rfl
  | cons f fs ih =>
      simp only [Filter.evalOr, Filter.childResults]
      rcases hf : Filter.evaluate rt info h f rand with ⟨b, rand'⟩
      cases b <;> simp [ih]

theorem andFold_frame {α σ : Type} (ev : α → σ → Bool × σ)
    (pre : List α) (f : α) (post : List α) (s : σ)
    (hpre : (seqRun ev pre s).fst.all id = true)
    (hf : (ev f (seqRun ev pre s).snd).fst = false) :
    andFold ev (pre ++ f :: post) s = (false, (ev f (seqRun ev pre s).snd).snd) := by
  induction pre generalizing s with
  | nil =>
      simp only [List.nil_append, andFold, seqRun] at *
      rcases he : ev f s with ⟨b, s'⟩
      rw [he] at hf
      cases b
      · rfl
      · exact absurd hf (by simp)
  | cons p pre' ih =>
      simp only [seqRun] at hpre hf ⊢
      rcases hp : ev p s with ⟨b, s1⟩
      rw [hp] at hpre hf
      rcases hq : seqRun ev pre' s1 with ⟨bs, s2⟩
      rw [hq] at hpre hf
      simp only [List.all_cons, Bool.and_eq_true, id] at hpre
      simp only [List.cons_append, andFold, hp, hpre.1]
      have := ih s1 (by rw [hq]; exact hpre.2) (by rw [hq]; exact hf)
      rw [hq] at this
      exact this

theorem orFold_frame {α σ : Type} (ev : α → σ → Bool × σ)
    (pre : List α) (f : α) (post : List α) (s : σ)
    (hpre : (seqRun ev pre s).fst.any id = false)
    (hf : (ev f (seqRun ev pre s).snd).fst = true) :
    orFold ev (pre ++ f :: post) s = (true, (ev f (seqRun ev pre s).snd).snd) := by
  induction pre generalizing s with
  | nil =>
      simp only [List.nil_append, orFold, seqRun] at *
      rcases he : ev f s with ⟨b, s'⟩
      rw [he] at hf
      cases b
      · exact absurd hf (by simp)
      · rfl
  | cons p pre' ih =>
      simp only [seqRun] at hpre hf ⊢
      rcases hp : ev p s with ⟨b, s1⟩
      rw [hp] at hpre hf
      rcases hq : seqRun ev pre' s1 with ⟨bs, s2⟩
      rw [hq] at hpre hf
      simp only [List.any_cons, Bool.or_eq_false_iff, id] at hpre
      simp only [List.cons_append, orFold, hp, hpre.1]
      have := ih s1 (by rw [hq]; exact hpre.2) (by rw [hq]; exact hf)
      rw [hq] at this
      exact this

theorem andFold_instrument_frame {α σ : Type} (ev : α → σ → Bool × σ)
    (pre : List α) (f : α) (post : List α) (s : σ) (log : List α)
    (hpre : (seqRun ev pre s).fst.all id = true)
    (hf : (ev f (seqRun ev pre s).snd).fst = false) :
    andFold (instrument ev) (pre ++ f :: post) (s, log)
      = (false, ((ev f (seqRun ev pre s).snd).snd, log ++ pre ++ [f])) := by
  induction pre generalizing s log with
  | nil =>
      simp only [List.nil_append, andFold, instrument, seqRun] at *
      rcases he : ev f s with ⟨b, s'⟩
      rw [he] at hf
      cases b
      · simp
      · exact absurd hf (by simp)
  | cons p pre' ih =>
      simp only [seqRun] at hpre hf ⊢
      rcases hp : ev p s with ⟨b, s1⟩
      rw [hp] at hpre hf
      rcases hq : seqRun ev pre' s1 with ⟨bs, s2⟩
      rw [hq] at hpre hf
      simp only [List.all_cons, Bool.and_eq_true, id] at hpre
      simp only [List.cons_append, andFold, instrument, hp, hpre.1]
      have := ih s1 (log ++ [p]) (by rw [hq]; exact hpre.2) (by rw [hq]; exact hf)
      rw [hq] at this
      simp only [List.append_assoc, List.singleton_append, List.cons_append,
        List.nil_append] at this ⊢
      exact this

theorem orFold_instrument_frame {α σ : Type} (ev : α → σ → Bool × σ)
    (pre : List α) (f : α) (post : List α) (s : σ) (log : List α)
    (hpre : (seqRun ev pre s).fst.any id = false)
    (hf : (ev f (seqRun ev pre s).snd).fst = true) :
    orFold (instrument ev) (pre ++ f :: post) (s, log)
      = (true, ((ev f (seqRun ev pre s).snd).snd, log ++ pre ++ [f])) := by
  induction pre generalizing s log with
  | nil =>
      simp only [List.nil_append, orFold, instrument, seqRun] at *
      rcases he : ev f s with ⟨b, s'⟩
      rw [he] at hf
      cases b
      · exact absurd hf (by simp)
      · simp
  | cons p pre' ih =>
      simp only [seqRun] at hpre hf ⊢
      rcases hp : ev p s with ⟨b, s1⟩
      rw [hp] at hpre hf
      rcases hq : seqRun ev pre' s1 with ⟨bs, s2⟩
      rw [hq] at hpre hf
      simp only [List.any_cons, Bool.or_eq_false_iff, id] at hpre
      simp only [List.cons_append, orFold, instrument, hp, hpre.1]
      have := ih s1 (log ++ [p]) (by rw [hq]; exact hpre.2) (by rw [hq]; exact hf)
      rw [hq] at this
      simp only [List.append_assoc, List.singleton_append, List.cons_append,
        List.nil_append] at this ⊢
      exact this

/-- Validation of raw comparison parameters either succeeds or reports a
missing field. -/
theorem buildComparison_cases (o : Option RawComparison) :
    (∃ c, buildComparison o = .ok c) ∨ buildComparison o = .error .MissingField := by
  match o with
  | none => exact Or.inr rfl
  | some c =>
      match hop : c.op, hlit : c.literal with
      | some op, some lit =>
          exact Or.inl ⟨⟨op, lit, c.runtime_key⟩, by simp [buildComparison, hop, hlit]⟩
      | some op, none => exact Or.inr (by simp [buildComparison, hop, hlit])
      | none, some lit => exact Or.inr (by simp [buildComparison, hop, hlit])
      | none, none => exact Or.inr (by simp [buildComparison, hop, hlit])

mutual

/-- `FilterFactory.fromProto` either returns a fully built filter or fails
with `UnknownKind` or `MissingField`. -/
theorem fromProto_total (cfg : RawFilterConfig) :
    (∃ f, FilterFactory.fromProto cfg = .ok f)
    ∨ FilterFactory.fromProto cfg = .error .UnknownKind
    ∨ FilterFactory.fromProto cfg = .error .MissingField :=
  match cfg with
  | .mk kind cmp children key num den indep => by
      simp only [FilterFactory.fromProto]
      split
      · rcases buildComparison_cases cmp with ⟨c, hc⟩ | hc
        · exact Or.inl ⟨Filter.statusCode c, by rw [hc]⟩
        · exact Or.inr (Or.inr (by rw [hc]))
      · rcases buildComparison_cases cmp with ⟨c, hc⟩ | hc
        · exact Or.inl ⟨Filter.duration c, by rw [hc]⟩
        · exact Or.inr (Or.inr (by rw [hc]))
      · rcases fromProtoList_total children with ⟨fs, hfs⟩ | hfs | hfs
        · exact Or.inl ⟨Filter.and fs, by rw [hfs]⟩
        · exact Or.inr (Or.inl (by rw [hfs]))
        · exact Or.inr (Or.inr (by rw [hfs]))
      · rcases fromProtoList_total children with ⟨fs, hfs⟩ | hfs | hfs
        · exact Or.inl ⟨Filter.or fs, by rw [hfs]⟩
        · exact Or.inr (Or.inl (by rw [hfs]))
        · exact Or.inr (Or.inr (by rw [hfs]))
      · exact Or.inl ⟨Filter.notHealthCheck, rfl⟩
      · exact Or.inl ⟨Filter.traceableRequest, rfl⟩
      · split
        · exact Or.inl ⟨_, rfl⟩
        · exact Or.inr (Or.inr rfl)
      · exact Or.inr (Or.inl rfl)

/-- `FilterFactory.fromProtoList` either returns all built children or
fails with `UnknownKind` or `MissingField`. -/
theorem fromProtoList_total (cs : List RawFilterConfig) :
    (∃ fs, FilterFactory.fromProtoList cs = .ok fs)
    ∨ FilterFactory.fromProtoList cs = .error .UnknownKind
    ∨ FilterFactory.fromProtoList cs = .error .MissingField :=
  match cs with
  | [] => Or.inl ⟨[], rfl⟩
  | c :: cs' => by
      rcases fromProto_total c with ⟨f, hf⟩ | hf | hf
      · rcases fromProtoList_total cs' with ⟨fs, hfs⟩ | hfs | hfs
        · exact Or.inl ⟨f :: fs, by simp [FilterFactory.fromProtoList, hf, hfs]⟩
        · exact Or.inr (Or.inl (by simp [FilterFactory.fromProtoList, hf, hfs]))
        · exact Or.inr (Or.inr (by simp [FilterFactory.fromProtoList, hf, hfs]))
      · exact Or.inr (Or.inl (by simp [FilterFactory.fromProtoList, hf]))
      · exact Or.inr (Or.inr (by simp [FilterFactory.fromProtoList, hf]))

end

/-! ## Claim theorems -/

/-- C1: For every list of child filters and every evaluation input,
`AndFilter::evaluate` returns true iff every child evaluates true and
`OrFilter::evaluate` returns true iff some child evaluates true (child
booleans taken from the sequential run threading the random state); an
And with an empty child list evaluates to true and an Or with an empty
child list evaluates to false. -/
theorem and_or_iff_children (rt : RuntimeProvider) (info : RequestSnapshot)
    (h : Option Headers) (cs : List Filter) (rand : List Nat) :
    ((Filter.evaluate rt info h (.and cs) rand).fst = true ↔
      ∀ b ∈ (Filter.childResults rt info h cs rand).fst, b = true)
  ∧ ((Filter.evaluate rt info h (.or cs) rand).fst = true ↔
      ∃ b ∈ (Filter.childResults rt info h cs rand).fst, b = true)
  ∧ Filter.evaluate rt info h (.and []) rand = (true, rand)
  ∧ Filter.evaluate rt info h (.or []) rand = (false, rand) := by
  refine ⟨?_, ?_, rfl, rfl⟩
  · rw [show Filter.evaluate rt info h (.and cs) rand
        = Filter.evalAnd rt info h cs rand from rfl, evalAnd_fst_eq_all]
    simp [List.all_eq_true]
  · rw [show Filter.evaluate rt info h (.or cs) rand
        = Filter.evalOr rt info h cs rand from rfl, evalOr_fst_eq_any]
    simp [List.any_eq_true]

/-- C2: Operator filters evaluate their children in configured order and
stop at the short-circuit point: when an And child returns false (or an
Or child returns true) after a run of children that did not short-circuit,
the result and final state are exactly those produced at the
short-circuiting child — no later child is evaluated, so its side effects
(random draws) do not occur — and the instrumented fold shows each child
before the short-circuit point is invoked exactly once, in order. -/
theorem operator_short_circuit_frame (rt : RuntimeProvider)
    (info : RequestSnapshot) (h : Option Headers)
    (pre : List Filter) (f : Filter) (post : List Filter)
    (rand : List Nat) (log : List Filter) :
    ((seqRun (Filter.evaluate rt info h) pre rand).fst.all id = true →
     (Filter.evaluate rt info h f
        (seqRun (Filter.evaluate rt info h) pre rand).snd).fst = false →
     Filter.evaluate rt info h (.and (pre ++ f :: post)) rand
       = (false, (Filter.evaluate rt info h f
           (seqRun (Filter.evaluate rt info h) pre rand).snd).snd)
     ∧ andFold (instrument (Filter.evaluate rt info h)) (pre ++ f :: post) (rand, log)
       = (false, ((Filter.evaluate rt info h f
           (seqRun (Filter.evaluate rt info h) pre rand).snd).snd, log ++ pre ++ [f])))
  ∧ ((seqRun (Filter.evaluate rt info h) pre rand).fst.any id = false →
     (Filter.evaluate rt info h f
        (seqRun (Filter.evaluate rt info h) pre rand).snd).fst = true →
     Filter.evaluate rt info h (.or (pre ++ f :: post)) rand
       = (true, (Filter.evaluate rt info h f
           (seqRun (Filter.evaluate rt info h) pre rand).snd).snd)
     ∧ orFold (instrument (Filter.evaluate rt info h)) (pre ++ f :: post) (rand, log)
       = (true, ((Filter.evaluate rt info h f
           (seqRun (Filter.evaluate rt info h) pre rand).snd).snd, log ++ pre ++ [f]))) := by
  constructor
  · intro hpre hf
    refine ⟨?_, andFold_instrument_frame _ pre f post rand log hpre hf⟩
    rw [show Filter.evaluate rt info h (.and (pre ++ f :: post)) rand
        = Filter.evalAnd rt info h (pre ++ f :: post) rand from rfl, evalAnd_eq_andFold]
    exact andFold_frame _ pre f post rand hpre hf
  · intro hpre hf
    refine ⟨?_, orFold_instrument_frame _ pre f post rand log hpre hf⟩
    rw [show Filter.evaluate rt info h (.or (pre ++ f :: post)) rand
        = Filter.evalOr rt info h (pre ++ f :: post) rand from rfl, evalOr_eq_orFold]
    exact orFold_frame _ pre f post rand hpre hf

/-- Witness for C2: with one passing child before a failing status-code
child and a sampling child after it, the And evaluation returns false
leaving the random stream untouched, and the invocation log contains
exactly the first two children. -/
theorem operator_short_circuit_frame_witness :
    Filter.evaluate (fun _ => none : RuntimeProvider) ⟨some 503, 1500, false, true⟩ none
        (.and [Filter.notHealthCheck, Filter.statusCode ⟨CompOp.lt, 100, none⟩,
               Filter.runtimeSample "k" 50 100 false]) [7]
      = (false, [7])
  ∧ andFold (instrument (Filter.evaluate (fun _ => none : RuntimeProvider)
        ⟨some 503, 1500, false, true⟩ none))
      [Filter.notHealthCheck, Filter.statusCode ⟨CompOp.lt, 100, none⟩,
       Filter.runtimeSample "k" 50 100 false] ([7], [])
      = (false, ([7], [Filter.notHealthCheck, Filter.statusCode ⟨CompOp.lt, 100, none⟩])) :=
  (operator_short_circuit_frame (fun _ => none) ⟨some 503, 1500, false, true⟩ none
      [Filter.notHealthCheck] (Filter.statusCode ⟨CompOp.lt, 100, none⟩)
      [Filter.runtimeSample "k" 50 100 false] [7] []).1 (by decide) (by decide)

/-- C3: For every comparison filter (status code or duration), every
operator and every snapshot, evaluate returns exactly the standard
unsigned-integer comparison of the resolved left-hand value against the
resolved right-hand value, leaving the state unchanged (no side effects)
and never failing. -/
theorem comparison_evaluate_matches (c : Comparison) (rt : RuntimeProvider)
    (info : RequestSnapshot) (h : Option Headers) (rand : List Nat) :
    Filter.evaluate rt info h (.statusCode c) rand
      = (c.op.apply (info.status_code.getD 0) (c.rhs rt), rand)
  ∧ Filter.evaluate rt info h (.duration c) rand
      = (c.op.apply info.duration (c.rhs rt), rand)
  ∧ ∀ (op : CompOp) (a b : Nat), op.apply a b = true ↔ op.holds a b := by
  refine ⟨rfl, rfl, ?_⟩
  intro op a b
  cases op <;> simp [CompOp.apply, CompOp.holds]

/-- Witness for C3: a concrete status-code comparison evaluates to the
direct arithmetic comparison. -/
theorem comparison_evaluate_matches_witness :
    Filter.evaluate (fun _ => none : RuntimeProvider) ⟨some 503, 0, false, false⟩ none
      (.statusCode ⟨CompOp.ge, 500, none⟩) [] = (true, [])
  ∧ CompOp.holds CompOp.le 2 3 :=
  ⟨(comparison_evaluate_matches ⟨CompOp.ge, 500, none⟩ (fun _ => none)
      ⟨some 503, 0, false, false⟩ none []).1,
   ((comparison_evaluate_matches ⟨CompOp.ge, 500, none⟩ (fun _ => none)
      ⟨some 503, 0, false, false⟩ none []).2.2 CompOp.le 2 3).mp (by decide)⟩

/-- C4: the right-hand comparison value equals the runtime-provided value
for the configured runtime key when such a key is configured and present,
and equals the literal otherwise (no key configured, or key absent); the
comparison filters evaluate against exactly this resolved value. -/
theorem comparison_rhs_resolution (c : Comparison) (rt : RuntimeProvider) :
    (∀ k v, c.runtime_key = some k → rt k = some v → c.rhs rt = v)
  ∧ (∀ k, c.runtime_key = some k → rt k = none → c.rhs rt = c.literal)
  ∧ (c.runtime_key = none → c.rhs rt = c.literal)
  ∧ ∀ (info : RequestSnapshot) (h : Option Headers) (rand : List Nat),
      Filter.evaluate rt info h (.statusCode c) rand
        = (c.op.apply (info.status_code.getD 0) (c.rhs rt), rand)
      ∧ Filter.evaluate rt info h (.duration c) rand
        = (c.op.apply info.duration (c.rhs rt), rand) := by
  refine ⟨?_, ?_, ?_, fun info h rand => ⟨rfl, rfl⟩⟩
  · intro k v hk hv
    simp [Comparison.rhs, hk, RuntimeProvider.get, hv]
  · intro k hk hv
    simp [Comparison.rhs, hk, RuntimeProvider.get, hv]
  · intro hk
    simp [Comparison.rhs, hk]

/-- Witness for C4: a present runtime key overrides the literal, an
absent key and a missing key both fall back to the literal. -/
theorem comparison_rhs_resolution_witness :
    Comparison.rhs ⟨CompOp.eq, 5, some "k"⟩
      (fun s => if s = "k" then some 7 else none) = 7
  ∧ Comparison.rhs ⟨CompOp.eq, 5, some "k"⟩ (fun _ => none) = 5
  ∧ Comparison.rhs ⟨CompOp.eq, 5, none⟩ (fun _ => none) = 5 :=
  ⟨(comparison_rhs_resolution ⟨CompOp.eq, 5, some "k"⟩
      (fun s => if s = "k" then some 7 else none)).1 "k" 7 rfl (by decide),
   (comparison_rhs_resolution ⟨CompOp.eq, 5, some "k"⟩ (fun _ => none)).2.1 "k" rfl rfl,
   (comparison_rhs_resolution ⟨CompOp.eq, 5, none⟩ (fun _ => none)).2.2.1 rfl⟩

/-- C5: for every snapshot whose status code is absent, the status-code
filter resolves the left-hand value to 0: `GE 500` is false and `LT 1`
is true regardless of the rest of the snapshot. -/
theorem statusCode_absent_resolves_zero (c : Comparison) (rt : RuntimeProvider)
    (info : RequestSnapshot) (h : Option Headers) (rand : List Nat)
    (habs : info.status_code = none) :
    Filter.evaluate rt info h (.statusCode c) rand = (c.op.apply 0 (c.rhs rt), rand)
  ∧ (Filter.evaluate rt info h (.statusCode ⟨.ge, 500, none⟩) rand).fst = false
  ∧ (Filter.evaluate rt info h (.statusCode ⟨.lt, 1, none⟩) rand).fst = true := by
  refine ⟨?_, ?_, ?_⟩ <;>
    simp [Filter.evaluate, Comparison.compareAgainstValue, Comparison.rhs,
      CompOp.apply, habs]

/-- Witness for C5: a snapshot with no status code fails `GE 500` and
satisfies `LT 1`. -/
theorem statusCode_absent_resolves_zero_witness :
    Filter.evaluate (fun _ => none : RuntimeProvider) ⟨none, 0, false, false⟩ none
      (.statusCode ⟨CompOp.ge, 500, none⟩) [] = (false, [])
  ∧ (Filter.evaluate (fun _ => none : RuntimeProvider) ⟨none, 0, false, false⟩ none
      (.statusCode ⟨CompOp.lt, 1, none⟩) []).fst = true :=
  ⟨(statusCode_absent_resolves_zero ⟨CompOp.ge, 500, none⟩ (fun _ => none)
      ⟨none, 0, false, false⟩ none [] rfl).1,
   (statusCode_absent_resolves_zero ⟨CompOp.ge, 500, none⟩ (fun _ => none)
      ⟨none, 0, false, false⟩ none [] rfl).2.2⟩

/-- C6: `TraceableRequestFilter::evaluate` returns true iff the request
is not a health check and carries an explicit trace decision; for every
health-check snapshot the result is false regardless of trace flags. -/
theorem traceableRequest_iff (rt : RuntimeProvider) (info : RequestSnapshot)
    (h : Option Headers) (rand : List Nat) :
    ((Filter.evaluate rt info h .traceableRequest rand).fst = true ↔
      info.is_health_check = false ∧ info.has_explicit_trace_decision = true)
  ∧ (info.is_health_check = true →
      (Filter.evaluate rt info h .traceableRequest rand).fst = false) := by
  constructor
  · simp [Filter.evaluate, Bool.and_eq_true]
  · intro hhc
    simp [Filter.evaluate, hhc]

/-- Witness for C6: a health-check request with an explicit trace
decision is still rejected. -/
theorem traceableRequest_iff_witness :
    (Filter.evaluate (fun _ => none : RuntimeProvider) ⟨none, 0, true, true⟩ none
      .traceableRequest []).fst = false :=
  (traceableRequest_iff (fun _ => none) ⟨none, 0, true, true⟩ none []).2 rfl

/-- C7: `RuntimeFilter::evaluate` consumes one draw from the injected
random source and returns `draw < numerator`, where the numerator may be
overridden by the runtime value for the configured key while the result
depends on the runtime provider only through that key (the denominator is
never overridden); it never fails, the result is false whenever the
effective numerator is 0, and true for every in-range draw whenever the
effective numerator is at least the denominator. -/
theorem runtimeFilter_evaluate_spec (rt : RuntimeProvider) (info : RequestSnapshot)
    (h : Option Headers) (key : String) (num den : Nat) (indep : Bool) :
    (∀ draw rest, Filter.evaluate rt info h (.runtimeSample key num den indep) (draw :: rest)
        = (decide (draw < rt.get key num), rest))
  ∧ (rt.get key num = 0 → ∀ draw rest,
      (Filter.evaluate rt info h (.runtimeSample key num den indep) (draw :: rest)).fst = false)
  ∧ (∀ draw rest, draw < den → den ≤ rt.get key num →
      (Filter.evaluate rt info h (.runtimeSample key num den indep) (draw :: rest)).fst = true)
  ∧ (∀ (rt' : RuntimeProvider) (den' : Nat) (rand : List Nat), rt' key = rt key →
      Filter.evaluate rt' info h (.runtimeSample key num den' indep) rand
        = Filter.evaluate rt info h (.runtimeSample key num den indep) rand) := by
  refine ⟨fun draw rest => rfl, ?_, ?_, ?_⟩
  · intro h0 draw rest
    simp [Filter.evaluate, h0]
  · intro draw rest hlt hle
    simp only [Filter.evaluate, List.headD_cons, decide_eq_true_eq]
    exact lt_of_lt_of_le hlt hle
  · intro rt' den' rand hk
    simp [Filter.evaluate, RuntimeProvider.get, hk]

/-- Witness for C7: numerator 0 rejects a concrete draw; an effective
numerator of 200 (runtime override) with denominator 100 accepts every
in-range draw. -/
theorem runtimeFilter_evaluate_spec_witness :
    (Filter.evaluate (fun _ => none : RuntimeProvider) ⟨none, 0, false, false⟩ none
      (.runtimeSample "k" 0 100 false) [5]).fst = false
  ∧ (Filter.evaluate (fun _ => some 200 : RuntimeProvider) ⟨none, 0, false, false⟩ none
      (.runtimeSample "k" 0 100 false) [5]).fst = true :=
  ⟨(runtimeFilter_evaluate_spec (fun _ => none) ⟨none, 0, false, false⟩ none
      "k" 0 100 false).2.1 rfl 5 [],
   (runtimeFilter_evaluate_spec (fun _ => some 200) ⟨none, 0, false, false⟩ none
      "k" 0 100 false).2.2.1 5 [] (by decide) (by decide)⟩

/-- C8: `FilterFactory::fromProto` is all-or-nothing: every configuration
either yields a fully constructed filter tree or fails with `UnknownKind`
or `MissingField`; in particular a config with kind `"bogus"` fails with
`UnknownKind`. -/
theorem filterFactory_all_or_nothing :
    (∀ cfg : RawFilterConfig,
      (∃ f, FilterFactory.fromProto cfg = .ok f)
      ∨ FilterFactory.fromProto cfg = .error .UnknownKind
      ∨ FilterFactory.fromProto cfg = .error .MissingField)
  ∧ FilterFactory.fromProto (.mk "bogus" none [] none none none none)
      = .error .UnknownKind :=
  ⟨fromProto_total, rfl⟩

/-- C9: `FileAccessLog::log` writes nothing and never calls the formatter
when the configured filter evaluates false; when the filter evaluates
true, or no filter is configured, the formatter is invoked once and
exactly one write of its output is appended to the sink. -/
theorem log_write_gating (al : FileAccessLog) (rt : RuntimeProvider)
    (reqH respH : Option Headers) (info : RequestSnapshot) (s : SinkState) :
    (∀ f, al.filter = some f →
      (Filter.evaluate rt info reqH f s.rand).fst = false →
      (al.log rt reqH respH info s).writes = s.writes
      ∧ (al.log rt reqH respH info s).formatterCalls = s.formatterCalls)
  ∧ (∀ f, al.filter = some f →
      (Filter.evaluate rt info reqH f s.rand).fst = true →
      (al.log rt reqH respH info s).writes = s.writes ++ [al.formatter info reqH respH]
      ∧ (al.log rt reqH respH info s).formatterCalls = s.formatterCalls + 1)
  ∧ (al.filter = none →
      (al.log rt reqH respH info s).writes = s.writes ++ [al.formatter info reqH respH]
      ∧ (al.log rt reqH respH info s).formatterCalls = s.formatterCalls + 1) := by
  refine ⟨?_, ?_, ?_⟩
  · intro f hf hev
    rcases he : Filter.evaluate rt info reqH f s.rand with ⟨b, rand'⟩
    rw [he] at hev
    simp only at hev
    subst hev
    constructor <;> simp [FileAccessLog.log, hf, he]
  · intro f hf hev
    rcases he : Filter.evaluate rt info reqH f s.rand with ⟨b, rand'⟩
    rw [he] at hev
    simp only at hev
    subst hev
    constructor <;> simp [FileAccessLog.log, hf, he]
  · intro hf
    constructor <;> simp [FileAccessLog.log, hf]

/-- Witness for C9: a health-check request against a `NotHealthCheck`
filter produces no write and no formatter call; with no filter configured
the same request produces exactly one write. -/
theorem log_write_gating_witness :
    (FileAccessLog.log ⟨some Filter.notHealthCheck, fun _ _ _ => "line"⟩
      (fun _ => none) none none ⟨none, 0, true, false⟩ ⟨[], [], 0⟩).writes = []
  ∧ (FileAccessLog.log ⟨some Filter.notHealthCheck, fun _ _ _ => "line"⟩
      (fun _ => none) none none ⟨none, 0, true, false⟩ ⟨[], [], 0⟩).formatterCalls = 0
  ∧ (FileAccessLog.log ⟨none, fun _ _ _ => "line"⟩
      (fun _ => none) none none ⟨none, 0, true, false⟩ ⟨[], [], 0⟩).writes = ["line"] :=
  ⟨((log_write_gating ⟨some Filter.notHealthCheck, fun _ _ _ => "line"⟩
      (fun _ => none) none none ⟨none, 0, true, false⟩ ⟨[], [], 0⟩).1
      Filter.notHealthCheck rfl (by decide)).1,
   ((log_write_gating ⟨some Filter.notHealthCheck, fun _ _ _ => "line"⟩
      (fun _ => none) none none ⟨none, 0, true, false⟩ ⟨[], [], 0⟩).1
      Filter.notHealthCheck rfl (by decide)).2,
   ((log_write_gating ⟨none, fun _ _ _ => "line"⟩
      (fun _ => none) none none ⟨none, 0, true, false⟩ ⟨[], [], 0⟩).2.2 rfl).1⟩

/-- C10: filter decisions are independent of response headers — the
evaluate signature consumes only the snapshot and the request headers, so
two `log` calls differing only in response headers agree on whether a
line is written, on the formatter-call count, and on the random state. -/
theorem log_ignores_response_headers (al : FileAccessLog) (rt : RuntimeProvider)
    (reqH r1 r2 : Option Headers) (info : RequestSnapshot) (s : SinkState) :
    (al.log rt reqH r1 info s).writes.length = (al.log rt reqH r2 info s).writes.length
  ∧ (al.log rt reqH r1 info s).formatterCalls = (al.log rt reqH r2 info s).formatterCalls
  ∧ (al.log rt reqH r1 info s).rand = (al.log rt reqH r2 info s).rand := by
  rcases al with ⟨filt, fmt⟩
  cases filt with
  | none => simp [FileAccessLog.log]
  | some f =>
      rcases he : Filter.evaluate rt info reqH f s.rand with ⟨b, rand'⟩
      cases b <;> simp [FileAccessLog.log, he]

end AccessLog
end Envoy
